import Mathlib

/-!
Verification of the AMB P3 client (hama-jp/ambp3client) against its
natural-language specification.  The Python sources are shallowly embedded:
byte strings become `List Nat` (each entry a byte value), fallible code
returns `Except PyErr`, and database tables become lists of rows.
Definitions come first, theorems afterwards.
-/

/-- Python exceptions that the embedded code paths can raise. -/
inductive PyErr : Type
  | valueError
  | attributeError
  deriving DecidableEq, Repr

/-! ## CRC engine (src/AmbP3/crc16.py) -/

/-- `POLY = 0x1021` (crc16.py line 9). -/
def POLY : Nat := 0x1021

/-- `START = 0xFFFF` (crc16.py line 10). -/
def START : Nat := 0xFFFF

/-- One iteration of the inner loop of `table()` (crc16.py lines 17-20):
`crc = ((0xFFFF & crc << 1) ^ (POLY if ((crc & 0x8000) != 0) else 0)) & 0xFFFF`. -/
def tableStep (crc : Nat) : Nat :=
  ((0xFFFF &&& (crc <<< 1)) ^^^ (if crc &&& 0x8000 ≠ 0 then POLY else 0)) &&& 0xFFFF

/-- Entry `i` of the CRC table: `crc = i << 8` folded through eight
iterations of `tableStep` (crc16.py lines 15-21). -/
def crcTableEntry (i : Nat) : Nat :=
  (List.range 8).foldl (fun c _ => tableStep c) (i <<< 8)

/-- The 256-entry table built by `table()` (crc16.py lines 13-22). -/
def crcTable : List Nat :=
  (List.range 256).map crcTableEntry

/-- One iteration of the loop of `calc(msg, tbl)` (crc16.py line 33):
`crc = 0xFFFF & (tbl[(crc >> 8) & 0xFF] ^ (0xFFFF & crc << 8) ^ b)`. -/
def calcStep (crc b : Nat) : Nat :=
  0xFFFF &&& ((crcTable.getD ((crc >>> 8) &&& 0xFF) 0) ^^^ (0xFFFF &&& (crc <<< 8)) ^^^ b)

/-- The running register of `calc` after consuming `msg` (crc16.py lines 31-33). -/
def crcRegister (msg : List Nat) : Nat :=
  msg.foldl calcStep START

/-- `calc(msg, tbl)` (crc16.py lines 25-34); the argument is the byte string
denoted by the hex string `msg` (`bytearray.fromhex` round-trips it).  Returns
`(crc << 8 & 0xFFFF) | (crc >> 8)` (line 34). -/
def crc16calc (msg : List Nat) : Nat :=
  ((crcRegister msg <<< 8) &&& 0xFFFF) ||| (crcRegister msg >>> 8)

/-! Spec-side CRC definitions, written from the words of claim C4 and of the
amended claim, for comparison with the source embedding above. -/

/-- The step claimed by C4 / spec 4.1:
`crc = table[(crc>>8) ^ b] ^ ((crc<<8) & 0xFFFF)` — the byte is XORed into
the table index. -/
def claimCalcStep (crc b : Nat) : Nat :=
  (crcTable.getD ((crc >>> 8) ^^^ b) 0) ^^^ ((crc <<< 8) &&& 0xFFFF)

/-- The swap claimed by C4 / spec 4.1: the stored CRC equals
`(crc<<8 | crc>>8) & 0xFFFF`. -/
def claimSwap (crc : Nat) : Nat :=
  ((crc <<< 8) ||| (crc >>> 8)) &&& 0xFFFF

/-- `crc16` as claim C4 states it: fold `claimCalcStep` from `0xFFFF`,
then byte-swap. -/
def claimCrc16 (msg : List Nat) : Nat :=
  claimSwap (msg.foldl claimCalcStep START)

/-- The amended step: the table is indexed by `(crc>>8) & 0xFF` alone and the
byte is XORed into the result:
`crc = (table[(crc>>8) & 0xFF] ^ ((crc<<8) & 0xFFFF) ^ b) & 0xFFFF`,
with the table entry written as the 8-round fold rather than a table read. -/
def amendedCalcStep (crc b : Nat) : Nat :=
  ((crcTableEntry ((crc >>> 8) &&& 0xFF)) ^^^ ((crc <<< 8) &&& 0xFFFF) ^^^ b) &&& 0xFFFF

/-- `crc16` as the amended claim states it. -/
def amendedCrc16 (msg : List Nat) : Nat :=
  claimSwap (msg.foldl amendedCalcStep START)

/-! ## Hex-string helpers (`codecs.encode(-, "hex")`, `bytes.fromhex`) -/

/-- One lowercase hex digit, as produced by `bytes.hex()`. -/
def hexDigitChar (n : Nat) : Char :=
  if n < 10 then Char.ofNat (48 + n) else Char.ofNat (87 + n)

/-- The two-lowercase-hex-digit image of one byte under
`codecs.encode(-, "hex")`. -/
def byteHex (b : Nat) : String :=
  String.mk [hexDigitChar (b / 16 % 16), hexDigitChar (b % 16)]

/-- `codecs.encode(bs, "hex")` for a byte string. -/
def bytesHex (l : List Nat) : String :=
  String.join (l.map byteHex)

/-- Value of one hex character (either case), as accepted by
`bytes.fromhex`. -/
def hexCharVal (c : Char) : Option Nat :=
  if 48 ≤ c.toNat ∧ c.toNat ≤ 57 then some (c.toNat - 48)
  else if 97 ≤ c.toNat ∧ c.toNat ≤ 102 then some (c.toNat - 87)
  else if 65 ≤ c.toNat ∧ c.toNat ≤ 70 then some (c.toNat - 55)
  else none

/-- Pairs of hex characters to bytes; `none` models the `ValueError` of
`bytes.fromhex` on a malformed string. -/
def hexPairsToBytes : List Char → Option (List Nat)
  | [] => some []
  | [_] => none
  | a :: b :: rest => do
      let hi ← hexCharVal a
      let lo ← hexCharVal b
      let tail ← hexPairsToBytes rest
      pure ((16 * hi + lo) :: tail)

/-- `bytes.fromhex` (no whitespace in the inputs used by this code base). -/
def bytesFromHex (s : String) : Option (List Nat) :=
  hexPairsToBytes s.data

/-! ## Frame splitting (src/AmbP3/decoder.py, `Connection.split_records`,
lines 44-58) -/

/-- The loop of `split_records`: walking the buffer, a byte 143 (0x8F)
followed by a byte 142 (0x8E) closes the current frame after appending the
143 (the `index != size - 1` guard means the final byte never starts a
boundary); every byte is appended to the current frame. -/
def splitGo : List Nat → List (List Nat)
  | [] => [[]]
  | [b] => [[b]]
  | b :: c :: rest =>
    if b = 143 ∧ c = 142 then
      [b] :: splitGo (c :: rest)
    else
      match splitGo (c :: rest) with
      | f :: fs => (b :: f) :: fs
      | [] => [[b]]

/-- `Connection.split_records(data)` (decoder.py lines 44-58). -/
def split_records (data : List Nat) : List (List Nat) :=
  splitGo data

/-! ## Unescaping (src/AmbP3/decoder.py, `p3decode._unescape`,
lines 166-185) -/

/-- `bytearray.append` of one byte onto the (possibly failed) rest of an
unescape run. -/
def exceptCons (b : Nat) : Except PyErr (List Nat) → Except PyErr (List Nat)
  | .ok l => .ok (b :: l)
  | .error e => .error e

/-- The interior loop of `_unescape`: a byte in `[141, 141, 142]` sets
`escape_next`; when `escape_next` is set the byte minus 32 is emitted
(`bytearray.append` would raise `ValueError` for a byte below 32). -/
def unescapeLoop : List Nat → Bool → Except PyErr (List Nat)
  | [], _ => .ok []
  | b :: rest, true =>
    if b < 32 then .error .valueError
    else exceptCons (b - 32) (unescapeLoop rest false)
  | b :: rest, false =>
    if b = 141 ∨ b = 142 then unescapeLoop rest true
    else exceptCons b (unescapeLoop rest false)

/-- Re-framing of the unescaped interior: `escaped_data.insert(0, 142)` and
`escaped_data.append(143)` (decoder.py lines 183-184). -/
def frameResult : Except PyErr (List Nat) → Except PyErr (List Nat)
  | .ok l => .ok (142 :: (l ++ [143]))
  | .error e => .error e

/-- `p3decode._unescape(data)`: the slice `data[1:-1]` is unescaped, then 142
is inserted in front and 143 appended (decoder.py lines 166-185). -/
def unescape (data : List Nat) : Except PyErr (List Nat) :=
  frameResult (unescapeLoop ((data.drop 1).dropLast) false)

/-- The unescape rule exactly as claim C2 states it: only 0x8D (141) triggers
an escape; the ESC is discarded and the following byte minus 0x20 is emitted;
every other interior byte, including 0x8E (142), passes through unchanged. -/
def claimUnescapeInterior : List Nat → List Nat
  | [] => []
  | b :: rest =>
    if b = 141 then
      match rest with
      | [] => []
      | c :: rest' => (c - 32) :: claimUnescapeInterior rest'
    else b :: claimUnescapeInterior rest

/-- The amended unescape rule: both 0x8D (141) and 0x8E (142) trigger an
escape (the trigger byte is discarded and the following byte minus 0x20 is
emitted; a following byte below 0x20 is rejected; a trailing trigger with
nothing after it emits nothing); every other interior byte passes through. -/
def amendedUnescapeInterior : List Nat → Except PyErr (List Nat)
  | [] => .ok []
  | b :: rest =>
    if b = 141 ∨ b = 142 then
      match rest with
      | [] => .ok []
      | c :: rest' =>
        if c < 32 then .error .valueError
        else exceptCons (c - 32) (amendedUnescapeInterior rest')
    else exceptCons b (amendedUnescapeInterior rest)

/-! ## CRC verification (src/AmbP3/decoder.py, `p3decode._check_crc`,
lines 128-164) -/

/-- `p3decode._check_crc(data)`: packets shorter than 6 bytes fail; the
stored CRC is `data[4:6]` read little-endian; the CRC is recomputed over a
copy of the (still escaped) input with bytes 4 and 5 zeroed; a mismatch
yields `None`. -/
def check_crc (data : List Nat) : Option (List Nat) :=
  if data.length < 6 then none
  else
    let packet_crc := data.getD 4 0 + 256 * data.getD 5 0
    let zeroed := (data.set 4 0).set 5 0
    if crc16calc zeroed ≠ packet_crc then none else some data

/-! ## Header parsing (src/AmbP3/decoder.py, `p3decode._get_header`,
lines 191-201) -/

/-- The decoded header: each field is the byte slice taken by
`_get_header`, with the multi-byte fields reversed (`[::-1]`). -/
structure P3Header : Type where
  SOR : List Nat
  Version : List Nat
  Length : List Nat
  CRC : List Nat
  Flags : List Nat
  TOR : List Nat
  deriving DecidableEq, Repr

/-- `p3decode._get_header(data)` (decoder.py lines 191-201). -/
def get_header (data : List Nat) : P3Header :=
  let s := data.take 10
  { SOR := s.take 1
    Version := (s.drop 1).take 1
    Length := ((s.drop 2).take 2).reverse
    CRC := ((s.drop 4).take 2).reverse
    Flags := ((s.drop 6).take 2).reverse
    TOR := ((s.drop 8).take 2).reverse }

/-! ## Record tables.  `AmbP3/records.py` is imported by the decoder but is
not among the sources, so its tables are reconstructed from the spec. -/

/-- Modelled from the spec: `records.type_of_records`, keyed by the hex of
the (byte-reversed) TOR.  Spec §6 lists PASSING (0001), STATUS (0002) and
GET_TIME (0024) with the given field ids and names. -/
def type_of_records : List (String × String × List (String × String)) :=
  [("0001", ("PASSING",
      [("01", "PASSING_NUMBER"), ("03", "TRANSPONDER"), ("04", "RTC_TIME"),
       ("05", "STRENGTH"), ("06", "HITS"), ("08", "FLAGS"),
       ("10", "UTC_TIME")])),
   ("0002", ("STATUS",
      [("01", "NOISE"), ("06", "GPS"), ("07", "TEMPERATURE"),
       ("0b", "LOOP_TRIGGERS"), ("0c", "INPUT_VOLTAGE")])),
   ("0024", ("GET_TIME", [("01", "RTC_TIME")]))]

/-- Modelled from the spec: `records.GENERAL`, the shared general field
table (spec §6: general field `81: DECODER_ID`). -/
def GENERAL : List (String × String) :=
  [("81", "DECODER_ID")]

/-! ## Body decoding (src/AmbP3/decoder.py, `p3decode._decode_record` and
`p3decode._decode_body`, lines 203-263) -/

/-- Dictionary lookup `one_byte_hex in tor_fields` / `tor_fields[...]`;
the merged dict `{**general_fields, **tor_fields}` gives the record-specific
entry precedence, so the record-specific table is searched first. -/
def fieldName (tfields : List (String × String)) (idHex : String) : Option String :=
  (tfields.find? (fun p => p.1 = idHex)).map (fun p => p.2)

/-- `int(codecs.encode(tor_body[1:2], "hex"))` applied to one length byte:
the two hex digits of the byte are read back as a base-10 number, so the
conversion succeeds only when both digits are decimal
(`int(b"1a")` raises `ValueError`), and maps e.g. 0x10 to 10. -/
def lenOfLenByte (b : Nat) : Option Nat :=
  if b / 16 % 16 ≤ 9 ∧ b % 16 ≤ 9 then some (10 * (b / 16 % 16) + b % 16)
  else none

/-- Python dict assignment `DECODED[k] = v`: an existing key is overwritten
in place, a new key is appended. -/
def dictAssign (d : List (String × String)) (k v : String) : List (String × String) :=
  if d.any (fun p => p.1 = k) then d.map (fun p => if p.1 = k then (k, v) else p)
  else d ++ [(k, v)]

/-- The attribute chosen for one field-id byte: its name when the id is in
the (merged) field table; `none` when the id is `8f` (the loop stops); the
synthetic `UNDECODED_<hex>` name otherwise (decoder.py lines 226-239). -/
def attrOf (tfields : List (String × String)) (idHex : String) : Option String :=
  match fieldName tfields idHex with
  | some a => some a
  | none => if idHex = "8f" then none else some ("UNDECODED_" ++ idHex)

/-- The length read from `tor_body[1:2]`: `none` models the `ValueError`
raised by `int` on an empty slice or on hex digits that are not all
decimal (decoder.py line 242). -/
def readLenByte (rest : List Nat) : Option Nat :=
  match rest.head? with
  | none => none
  | some lb => lenOfLenByte lb

/-- The TLV loop of `_decode_record` (decoder.py lines 218-249), indexed by
fuel: take the first byte as field id, resolve its attribute via `attrOf`
(stop on `none`, the in-body terminator), read the length via `readLenByte`
(`ValueError` on `none`), slice `tor_body[2:2+length]` (silently truncated
when short), store its reversed hex, and drop `2 + length` bytes. -/
def decodeFieldsGo (tfields : List (String × String)) :
    Nat → List Nat → List (String × String) → Except PyErr (List (String × String))
  | _, [], acc => .ok acc
  | 0, _ :: _, _ => .error .valueError
  | fuel + 1, b :: rest, acc =>
    match attrOf tfields (byteHex b) with
    | none => .ok acc
    | some attr =>
      match readLenByte rest with
      | none => .error .valueError
      | some len =>
        decodeFieldsGo tfields fuel (rest.drop (1 + len))
          (dictAssign acc attr (bytesHex ((rest.drop 1).take len).reverse))

/-- The TLV loop entered with enough fuel: every iteration of the `while`
consumes at least two body bytes, so a fuel of `body.length` is never
exhausted (`decodeFieldsGo_fuel` below) and the fuel-free reading of the
loop coincides with this one. -/
def decodeFields (tfields : List (String × String)) (body : List Nat)
    (acc : List (String × String)) : Except PyErr (List (String × String)) :=
  decodeFieldsGo tfields body.length body acc

/-- Result of `_decode_record`: either the decoded field dict, or the
`{"undecoded_tor_body": tor_body}` dict returned for an unknown TOR. -/
inductive RecordResult : Type
  | decoded (fields : List (String × String))
  | undecodedTor (body : List Nat)
  deriving DecidableEq, Repr

/-- `p3decode._decode_record(tor, tor_body)` (decoder.py lines 203-250);
`torHex` is `codecs.encode(tor, "hex")` of the byte-reversed TOR. -/
def decode_record (torHex : String) (torBody : List Nat) : Except PyErr RecordResult :=
  match type_of_records.find? (fun e => e.1 = torHex) with
  | none => .ok (.undecodedTor torBody)
  | some e =>
    match decodeFields (e.2.2 ++ GENERAL) torBody [("TOR", e.2.1)] with
    | .ok fields => .ok (.decoded fields)
    | .error err => .error err

/-- `p3decode._decode_body(tor, data)` (decoder.py lines 252-263): the body
is `data[10:]`; a `ValueError` from `_decode_record` is caught and turned
into the empty result dict `{"RESULT": {}}`. -/
def decode_body (torHex : String) (data : List Nat) : RecordResult :=
  match decode_record torHex (data.drop 10) with
  | .ok r => r
  | .error _ => .decoded []

/-! ## p3decode (src/AmbP3/decoder.py, lines 119-276) -/

/-- `p3decode(data)` (decoder.py lines 119-276).  `_validate` runs
`_check_crc` first; when it returns `None`, the very next line
(`logger.debug(... data.hex())`, line 123) raises `AttributeError` on the
`None`, so a CRC mismatch escapes `p3decode` as an exception.  Otherwise the
(still escaped) data is unescaped, the header parsed, and the body decoded.
`p3decode` takes no other parameter: there is no `skip_crc_check`
configuration in its signature. -/
def p3decode (data : List Nat) : Except PyErr (P3Header × RecordResult) :=
  match check_crc data with
  | none => .error .attributeError
  | some d₀ =>
    match unescape d₀ with
    | .error e => .error e
    | .ok d =>
      let hdr := get_header d
      .ok (hdr, decode_body (bytesHex hdr.TOR) d)

/-! ## GET_TIME solicitation (src/AmbP3/time_server.py, `RefreshTime`,
lines 16-37) -/

/-- The literal message of `RefreshTime.run`:
`bytes.fromhex("8E0000005BEB000024000100040005008F")` (time_server.py
line 35). -/
def get_time_msg : Option (List Nat) :=
  bytesFromHex "8E0000005BEB000024000100040005008F"

/-- The sequence of socket writes performed by one run of the
`RefreshTime` thread: `run()` writes the message once, sleeps once, and
returns — its body contains no loop, so the trace is a single write. -/
def refreshTimeRunWrites : List (Option (List Nat)) :=
  [get_time_msg]

/-! ## Heat/lap engine (src/amb_laps.py) -/

/-- One row of the `passes` table (amb_laps.py `Pass`, lines 111-130). -/
structure PassRow : Type where
  db_entry_id : Nat
  pass_id : Nat
  transponder_id : Nat
  rtc_time : Int
  strength : Nat
  hits : Nat
  flags : Nat
  decoder_id : Nat
  deriving DecidableEq, Repr

/-- One row of the `laps` table. -/
structure LapRow : Type where
  heat_id : Nat
  pass_id : Nat
  transponder_id : Nat
  rtc_time : Int
  deriving DecidableEq, Repr

/-- The WHERE clause of the previous-lap query of `valid_lap_time`
(amb_laps.py lines 279-280): `heat_id=%s and transponder_id=%s and
pass_id<%s`. -/
def lapMatches (heatId tid passId : Nat) (l : LapRow) : Bool :=
  decide (l.heat_id = heatId) && decide (l.transponder_id = tid) &&
    decide (l.pass_id < passId)

/-- One step of scanning for the row with the greatest `pass_id`. -/
def pickMaxPass (acc : Option LapRow) (l : LapRow) : Option LapRow :=
  match acc with
  | none => some l
  | some m => if m.pass_id < l.pass_id then some l else some m

/-- `order by pass_id desc limit 1` over the matching rows: the row with
the greatest `pass_id` (ties keep the earlier row), `none` on no match. -/
def prevLapRow (laps : List LapRow) (heatId tid passId : Nat) : Option LapRow :=
  (laps.filter (lapMatches heatId tid passId)).foldl pickMaxPass none

/-- The `previous_lap_times` value used by `valid_lap_time`
(amb_laps.py lines 282-291): the `rtc_time` of the selected row, `0` when
the query returns nothing. -/
def previous_lap_time (laps : List LapRow) (heatId tid passId : Nat) : Int :=
  match prevLapRow laps heatId tid passId with
  | some l => l.rtc_time
  | none => 0

/-- `Heat.valid_lap_time(pas)` (amb_laps.py lines 277-301): returns the
verdict and the `passes` table, from which the row of `pas` is deleted on a
negative verdict. -/
def valid_lap_time (laps : List LapRow) (passes : List PassRow) (heatId : Nat)
    (minimum_lap_time : Int) (pas : PassRow) : Bool × List PassRow :=
  if minimum_lap_time * 1000000 <
      pas.rtc_time - previous_lap_time laps heatId pas.transponder_id pas.pass_id then
    (true, passes)
  else
    (false, passes.filter (fun r => r.pass_id ≠ pas.pass_id))

/-- `Heat.add_pass_to_laps(heat_id, pas)` (amb_laps.py lines 308-323):
insert the lap row when `valid_lap_time` holds, else keep the laps table
(the passing row has been deleted inside `valid_lap_time`). -/
def add_pass_to_laps (laps : List LapRow) (passes : List PassRow) (heatId : Nat)
    (minimum_lap_time : Int) (pas : PassRow) : List LapRow × List PassRow :=
  let v := valid_lap_time laps passes heatId minimum_lap_time pas
  if v.1 then
    (laps ++ [⟨heatId, pas.pass_id, pas.transponder_id, pas.rtc_time⟩], v.2)
  else
    (laps, v.2)

/-- The previous time exactly as claim C6 states it: the largest `rtc_time`
among this heat's laps with the passing's transponder and a smaller
`pass_id`, or 0 if no such lap exists. -/
def claimPreviousTime (laps : List LapRow) (heatId tid passId : Nat) : Int :=
  match (laps.filter (lapMatches heatId tid passId)).map (fun l => l.rtc_time) with
  | [] => 0
  | x :: xs => xs.foldl max x

/-- A lap is the previous lap in the amended sense: it matches the heat,
transponder and `pass_id` bound, and no matching lap has a greater
`pass_id`. -/
def IsPrevLap (laps : List LapRow) (heatId tid passId : Nat) (l : LapRow) : Prop :=
  l ∈ laps ∧ lapMatches heatId tid passId l = true ∧
    ∀ l' ∈ laps, lapMatches heatId tid passId l' = true → l'.pass_id ≤ l.pass_id

/-! ## Heat creation (src/amb_laps.py, `Heat.create_heat`, lines 325-389) -/

/-- The scalar subquery `select pass_id from laps order by pass_id desc
limit 1`: `none` (SQL NULL) when `laps` is empty. -/
def maxLapPassId (laps : List LapRow) : Option Nat :=
  laps.foldl
    (fun acc l =>
      match acc with
      | none => some l.pass_id
      | some m => if m < l.pass_id then some l.pass_id else some m)
    none

/-- The pass-adoption query of `create_heat` (amb_laps.py lines 354-355):
`select * from passes where pass_id > (subquery) and rtc_time > %s limit 1`.
When the subquery yields NULL (empty `laps`), the SQL comparison
`pass_id > NULL` is unknown for every row, so no row is selected. -/
def createHeatCandidate (passes : List PassRow) (laps : List LapRow)
    (green_flag_time : Int) : Option PassRow :=
  match maxLapPassId laps with
  | none => none
  | some m =>
    (passes.filter (fun p => decide (m < p.pass_id) &&
      decide (green_flag_time < p.rtc_time))).head?

/-! ## Predicates used by the split claims -/

/-- A buffer with no record boundary: no byte 143 immediately followed by a
byte 142. -/
def NoSplit : List Nat → Prop
  | [] => True
  | [_] => True
  | b :: c :: rest => ¬(b = 143 ∧ c = 142) ∧ NoSplit (c :: rest)

/-- An independently framed record in the sense of claim C5: SOR (142) in
front, EOR (143) at the end, and an escape-stuffed interior, which contains
neither a raw SOR nor a raw EOR. -/
def WellFramed (f : List Nat) : Prop :=
  ∃ mid, f = 142 :: mid ++ [143] ∧ ∀ b ∈ mid, b ≠ 142 ∧ b ≠ 143

/-! # Theorems -/

/-! ## CRC lemmas -/

theorem crcTable_getD (i : Nat) (h : i < 256) :
    crcTable.getD i 0 = crcTableEntry i := by
  unfold crcTable
  rw [List.getD_eq_getElem?_getD, List.getElem?_map, List.getElem?_range h]
  rfl

theorem calcStep_lt (crc b : Nat) : calcStep crc b < 65536 := by
  have h := Nat.and_le_left (n := 0xFFFF)
      (m := (crcTable.getD ((crc >>> 8) &&& 0xFF) 0) ^^^ (0xFFFF &&& (crc <<< 8)) ^^^ b)
  calc calcStep crc b ≤ 0xFFFF := h
    _ < 65536 := by norm_num

theorem and_ff_lt (x : Nat) : x &&& 0xFF < 256 := by
  have h := Nat.and_le_right (n := x) (m := 0xFF)
  omega

theorem calcStep_eq_amended (crc b : Nat) :
    calcStep crc b = amendedCalcStep crc b := by
  unfold calcStep amendedCalcStep
  rw [crcTable_getD _ (and_ff_lt _)]
  rw [Nat.and_comm 0xFFFF (crc <<< 8), Nat.and_comm 0xFFFF]

theorem crcRegister_lt (msg : List Nat) : crcRegister msg < 65536 := by
  unfold crcRegister
  induction msg using List.reverseRecOn with
  | nil => norm_num [START]
  | append_singleton xs x _ =>
      rw [List.foldl_append]
      exact calcStep_lt _ _

theorem swap_forms_eq (r : Nat) (h : r < 65536) :
    ((r <<< 8) &&& 0xFFFF) ||| (r >>> 8) = claimSwap r := by
  unfold claimSwap
  apply Nat.eq_of_testBit_eq
  intro i
  simp only [Nat.testBit_or, Nat.testBit_and, Nat.testBit_shiftRight]
  have hff : (0xFFFF : Nat) = 2 ^ 16 - 1 := by norm_num
  rw [hff, Nat.testBit_two_pow_sub_one]
  by_cases hi : i < 16
  · simp [hi]
  · have hb : r.testBit (8 + i) = false := by
      apply Nat.testBit_lt_two_pow
      calc r < 65536 := h
        _ = 2 ^ 16 := by norm_num
        _ ≤ 2 ^ (8 + i) := Nat.pow_le_pow_right (by norm_num) (by omega)
    simp [hi, hb]

/-- C4 counterexample: on the one-byte message `0x01`, `calc` as implemented
(`crc = 0xFFFF & (tbl[(crc>>8) & 0xFF] ^ (0xFFFF & crc << 8) ^ b)`) and the
claimed recurrence (`crc = table[(crc>>8) ^ b] ^ ((crc<<8) & 0xFFFF)`)
produce different CRCs (61921 versus 53745), so the claim misstates the
byte-consumption step of `crc16`. -/
theorem C4_counterexample : crc16calc [1] ≠ claimCrc16 [1] := by decide

/-- C4 (amended): `crc16` is table-driven with the 256-entry table whose
entry `i` is the 8-round CRC fold of the initial register `i<<8` under
polynomial 0x1021; the register starts at 0xFFFF and consumes each byte `b`
as `crc = (table[(crc>>8) & 0xFF] ^ ((crc<<8) & 0xFFFF) ^ b) & 0xFFFF` — the
byte is XORed into the result, not into the table index; the value produced
(and used identically on the verify and emit paths, which both call `calc`)
is the register byte-swapped, `(crc<<8 | crc>>8) & 0xFFFF`. -/
theorem C4_amended_calc (msg : List Nat) : crc16calc msg = amendedCrc16 msg := by
  have hstep : amendedCalcStep = calcStep :=
    funext fun c => funext fun b => (calcStep_eq_amended c b).symm
  unfold amendedCrc16
  rw [hstep]
  exact swap_forms_eq (crcRegister msg) (crcRegister_lt msg)

set_option maxRecDepth 8000 in
/-- C1 (code bug): on the 11-byte frame `8e 01 00 0b 00 00 00 00 00 01 8f`,
whose stored CRC field is 0x0000 while `crc16` of the frame with the CRC
bytes zeroed is 13469, `p3decode` escapes with `AttributeError` (the `None`
returned by `_check_crc` reaches `data.hex()` on decoder.py line 123)
instead of rejecting the frame cleanly; and `p3decode` accepts no
`skip_crc_check` configuration at all, although `amb_client.py`,
`test_live_server.py` and the test fixtures all pass one (with `True` as
the production default). -/
theorem C1_crc_mismatch_crashes :
    p3decode [0x8e, 0x01, 0x00, 0x0b, 0x00, 0x00, 0x00, 0x00, 0x00, 0x01, 0x8f]
        = .error .attributeError ∧
      crc16calc [0x8e, 0x01, 0x00, 0x0b, 0x00, 0x00, 0x00, 0x00, 0x00, 0x01, 0x8f]
        = 13469 :=
  ⟨by rfl, by decide⟩

/-- C9 (code bug): one run of the `RefreshTime` thread writes exactly the
literal 17-byte sequence `8E 00 00 00 5B EB 00 00 24 00 01 00 04 00 05 00
8F` to the decoder — but writes it exactly once: `run()` has no loop, so the
write is not repeated at the refresh interval. -/
theorem C9_single_write :
    refreshTimeRunWrites =
        [some [0x8E, 0x00, 0x00, 0x00, 0x5B, 0xEB, 0x00, 0x00, 0x24, 0x00,
               0x01, 0x00, 0x04, 0x00, 0x05, 0x00, 0x8F]] ∧
      refreshTimeRunWrites.length = 1 := by
  decide

/-! ## Fuel elimination for the TLV loop -/

theorem decodeFieldsGo_fuel (tfields : List (String × String)) :
    ∀ (fuel fuel' : Nat) (body : List Nat) (acc : List (String × String)),
      body.length ≤ fuel → body.length ≤ fuel' →
      decodeFieldsGo tfields fuel body acc = decodeFieldsGo tfields fuel' body acc := by
  intro fuel
  induction fuel with
  | zero =>
    intro fuel' body acc h _
    have hb : body = [] := List.eq_nil_of_length_eq_zero (Nat.le_zero.mp h)
    subst hb
    cases fuel' <;> rfl
  | succ n ih =>
    intro fuel' body acc h h'
    cases body with
    | nil => cases fuel' <;> rfl
    | cons b rest =>
      cases fuel' with
      | zero =>
        simp only [List.length_cons] at h'
        omega
      | succ m =>
        simp only [decodeFieldsGo]
        cases hattr : attrOf tfields (byteHex b) with
        | none => rfl
        | some attr =>
          cases hlb : readLenByte rest with
          | none => rfl
          | some len =>
            simp only [List.length_cons] at h h'
            apply ih
            · simp only [List.length_drop]
              omega
            · simp only [List.length_drop]
              omega

/-- C3 (code bug): the length byte is decoded by
`int(codecs.encode(tor_body[1:2], "hex"))` — base 10 over the hex digits —
so a length byte 0x10 consumes 10 value bytes, not 16: in a PASSING body
`01 10` followed by sixteen value bytes, the decoder takes only ten bytes as
PASSING_NUMBER and misparses the remaining six as a further FLAGS field;
and a length byte 0x1a (hex digit `a`) raises `ValueError` outright. -/
theorem C3_length_byte_read_as_decimal :
    decode_record "0001"
        ([0x01, 0x10] ++ List.replicate 10 0x11 ++ [0x08, 0x04, 1, 2, 3, 4, 0x8f])
      = .ok (.decoded [("TOR", "PASSING"),
                       ("PASSING_NUMBER", "11111111111111111111"),
                       ("FLAGS", "04030201")]) ∧
    decode_record "0001" [0x01, 0x1a, 0, 0, 0, 0] = .error .valueError :=
  ⟨by rfl, by rfl⟩

/-- C8 counterexample: a PASSING body that first yields PASSING_NUMBER and
then hits the unparsable length byte 0x0a aborts with a decode failure, but
`_decode_body` returns the empty dict `{"RESULT": {}}` — the extracted
PASSING_NUMBER is discarded, not preserved; and a length byte 0x04 that
exceeds the two remaining body bytes does not abort at all: the value is
silently truncated and decoding succeeds. -/
theorem C8_counterexample :
    decode_body "0001"
        (List.replicate 10 0 ++ [0x01, 0x04, 0xAA, 0xBB, 0xCC, 0xDD, 0x03, 0x0a, 0x01])
      = .decoded [] ∧
    decode_record "0001" [0x01, 0x04, 0xAA, 0xBB]
      = .ok (.decoded [("TOR", "PASSING"), ("PASSING_NUMBER", "bbaa")]) :=
  ⟨by rfl, by rfl⟩

/-- C8 (amended): whatever four value bytes the first field carries and
whatever bytes follow the unparsable length byte 0x0a, `_decode_body`
returns the empty result dict — the abort discards every field extracted
before it; and a length byte exceeding the remaining body never aborts:
`tor_body[2:2+N]` is silently truncated to whatever two bytes remain and
the record decodes successfully. -/
theorem C8_amended_abort_discards (v₁ v₂ v₃ v₄ : Nat) (rest : List Nat) :
    decode_body "0001"
        (List.replicate 10 0 ++ ([0x01, 0x04, v₁, v₂, v₃, v₄, 0x03, 0x0a] ++ rest))
      = .decoded [] ∧
    ∀ (w₁ w₂ : Nat), decode_record "0001" [0x01, 0x04, w₁, w₂]
      = .ok (.decoded [("TOR", "PASSING"), ("PASSING_NUMBER", bytesHex [w₂, w₁])]) :=
  ⟨by rfl, fun w₁ w₂ => by rfl⟩

/-! ## Unescape lemmas -/

theorem unescapeLoop_eq_amended : ∀ (mid : List Nat),
    unescapeLoop mid false = amendedUnescapeInterior mid
  | [] => rfl
  | b :: rest => by
    by_cases hb : b = 141 ∨ b = 142
    · cases rest with
      | nil => simp [unescapeLoop, amendedUnescapeInterior, hb]
      | cons c rest' =>
        by_cases hc : c < 32
        · simp [unescapeLoop, amendedUnescapeInterior, hb, hc]
        · have ih := unescapeLoop_eq_amended rest'
          simp only [unescapeLoop, amendedUnescapeInterior, if_pos hb, if_neg hc, ih]
    · have ih := unescapeLoop_eq_amended rest
      rw [amendedUnescapeInterior.eq_def]
      simp [unescapeLoop, hb, ih]

/-- C2 counterexample: on the frame `8e 8e 41 8f`, whose interior is the raw
SOR byte 0x8E followed by 0x41, `_unescape` treats the 0x8E as an escape
trigger (the membership test is `byte in [141, 141, 142]`) and emits
`0x41 - 0x20 = 0x21`, producing `8e 21 8f`; the rule claimed by C2 (only
0x8D triggers, 0x8E passes through) would leave the frame unchanged. -/
theorem C2_counterexample :
    unescape [142, 142, 65, 143] = .ok [142, 33, 143] ∧
      142 :: (claimUnescapeInterior [142, 65] ++ [143]) = [142, 142, 65, 143] :=
  ⟨by rfl, by rfl⟩

/-- C2 (amended): for every frame `0x8E mid 0x8F`, unescaping transforms
only the interior bytes: exactly the bytes 0x8D and 0x8E trigger an escape,
in which case the trigger byte is discarded and the following byte minus
0x20 is emitted (a following byte below 0x20 is rejected, a trailing
trigger emits nothing); every other interior byte, including 0x8F, passes
through unchanged; and the boundaries of the result are again 0x8E and
0x8F. -/
theorem C2_amended_unescape (mid : List Nat) :
    unescape (142 :: mid ++ [143]) = frameResult (amendedUnescapeInterior mid) := by
  unfold unescape
  have h1 : (142 :: mid ++ [143]).drop 1 = mid ++ [143] := rfl
  rw [h1]
  have h2 : (mid ++ [143]).dropLast = mid := by
    simp
  rw [h2, unescapeLoop_eq_amended]

/-- C7 (code bug): when no lap exists at all, the adoption query of
`create_heat` compares every `pass_id` against a NULL scalar subquery, so no
passing is ever selected — for every passings table and every green-flag
time the candidate is `none`, and `create_heat` polls forever; in
particular the passing (pass_id 7, rtc_time 100) is not adopted for
green_flag_time 50, although the claim says it vacuously qualifies. -/
theorem C7_empty_laps_never_adopts :
    (∀ (passes : List PassRow) (gft : Int), createHeatCandidate passes [] gft = none) ∧
      createHeatCandidate [⟨1, 7, 5, 100, 300, 3, 0, 1⟩] [] 50 = none :=
  ⟨fun _ _ => rfl, rfl⟩

/-! ## Split lemmas -/

theorem splitGo_ne_nil : ∀ (l : List Nat), splitGo l ≠ []
  | [] => by simp [splitGo]
  | [b] => by simp [splitGo]
  | b :: c :: rest => by
    by_cases h : b = 143 ∧ c = 142
    · simp [splitGo, h]
    · have hne := splitGo_ne_nil (c :: rest)
      simp only [splitGo, if_neg h]
      cases hs : splitGo (c :: rest) with
      | nil => exact absurd hs hne
      | cons f fs => simp

theorem splitGo_flatten : ∀ (l : List Nat), (splitGo l).flatten = l
  | [] => rfl
  | [b] => rfl
  | b :: c :: rest => by
    have ih := splitGo_flatten (c :: rest)
    by_cases h : b = 143 ∧ c = 142
    · obtain ⟨hb, hc⟩ := h
      subst hb
      subst hc
      simp [splitGo, ih]
    · have hne := splitGo_ne_nil (c :: rest)
      cases hs : splitGo (c :: rest) with
      | nil => exact absurd hs hne
      | cons f fs =>
        simp only [splitGo, if_neg h, hs]
        have hjoin : (f :: fs).flatten = c :: rest := by rw [← hs, ih]
        simp only [List.flatten_cons] at hjoin ⊢
        simp [hjoin]

/-- C10: for every input byte string, `split_records` returns a non-empty
list of frames whose concatenation is exactly the input — no byte is
dropped, duplicated or reordered. -/
theorem C10_split_lossless (data : List Nat) :
    split_records data ≠ [] ∧ (split_records data).flatten = data :=
  ⟨splitGo_ne_nil data, splitGo_flatten data⟩

theorem noSplit_of_no143 : ∀ (x : Nat) (mid : List Nat), x ≠ 143 →
    (∀ b ∈ mid, b ≠ 143) → NoSplit (x :: mid ++ [143])
  | _, [], hx, _ => ⟨fun hc => hx hc.1, trivial⟩
  | _, m :: mid, hx, hm =>
    ⟨fun hc => hx hc.1,
     noSplit_of_no143 m mid (hm m (List.mem_cons_self m mid))
       (fun b hb => hm b (List.mem_cons_of_mem m hb))⟩

theorem splitGo_of_noSplit : ∀ (l : List Nat), NoSplit l → splitGo l = [l]
  | [], _ => rfl
  | [_], _ => rfl
  | b :: c :: rest, h => by
    have h1 : ¬(b = 143 ∧ c = 142) := h.1
    have ih := splitGo_of_noSplit (c :: rest) h.2
    simp only [splitGo, if_neg h1, ih]

theorem splitGo_frame_prefix : ∀ (mid l₂ t : List Nat),
    (∀ b ∈ mid, b ≠ 143) → l₂ = 142 :: t →
    splitGo (mid ++ 143 :: l₂) = (mid ++ [143]) :: splitGo l₂
  | [], l₂, t, _, hl => by
    subst hl
    simp [splitGo]
  | m :: mid, l₂, t, hm, hl => by
    have hm143 : m ≠ 143 := hm m (List.mem_cons_self m mid)
    have ih := splitGo_frame_prefix mid l₂ t
      (fun b hb => hm b (List.mem_cons_of_mem m hb)) hl
    cases mid with
    | nil =>
      simp only [List.nil_append] at ih
      have hcond : ¬(m = 143 ∧ (143 : Nat) = 142) := fun hc => hm143 hc.1
      simp only [List.cons_append, List.nil_append, splitGo, if_neg hcond, ih]
    | cons m' mid' =>
      have hcond : ¬(m = 143 ∧ m' = 142) := fun hc => hm143 hc.1
      simp only [List.cons_append] at ih ⊢
      simp only [splitGo, if_neg hcond, ih]

theorem split_records_concat_frames : ∀ (frames : List (List Nat)),
    frames ≠ [] → (∀ f ∈ frames, WellFramed f) →
    split_records frames.flatten = frames
  | [], hne, _ => absurd rfl hne
  | [f], _, hwf => by
    obtain ⟨mid, hf, hmid⟩ := hwf f (List.mem_cons_self f [])
    subst hf
    show splitGo ((142 :: mid ++ [143]) :: []).flatten = [142 :: mid ++ [143]]
    rw [List.flatten_cons, List.flatten_nil, List.append_nil]
    exact splitGo_of_noSplit _
      (noSplit_of_no143 142 mid (by decide) (fun b hb => (hmid b hb).2))
  | f :: f' :: fs, _, hwf => by
    obtain ⟨mid, hf, hmid⟩ := hwf f (List.mem_cons_self f (f' :: fs))
    obtain ⟨mid', hf', _⟩ := hwf f' (by simp)
    have ih := split_records_concat_frames (f' :: fs) (by simp)
      (fun g hg => hwf g (List.mem_cons_of_mem f hg))
    have ht : (f' :: fs).flatten = 142 :: (mid' ++ [143] ++ fs.flatten) := by
      rw [List.flatten_cons, hf']
      simp
    show splitGo (f :: f' :: fs).flatten = f :: f' :: fs
    rw [List.flatten_cons]
    have heq : f ++ (f' :: fs).flatten = (142 :: mid) ++ 143 :: (f' :: fs).flatten := by
      rw [hf]
      simp
    rw [heq, splitGo_frame_prefix (142 :: mid) _ _ ?hno ht]
    · rw [show splitGo (f' :: fs).flatten = f' :: fs from ih]
      rw [hf]
    case hno =>
      intro b hb
      rcases List.mem_cons.mp hb with h | h
      · subst h; decide
      · exact (hmid b h).2

/-- C5: a buffer that is the concatenation of one or more independently
framed records (each 0x8E…0x8F-bounded, with an escape-stuffed interior
containing no raw SOR or EOR) is split back into exactly those records:
every 0x8F/0x8E junction is a boundary, the 0x8F stays with the closing
frame, and the trailing frame is emitted as-is. -/
theorem C5_split_concat (frames : List (List Nat)) (hne : frames ≠ [])
    (hwf : ∀ f ∈ frames, WellFramed f) :
    split_records frames.flatten = frames :=
  split_records_concat_frames frames hne hwf

/-- Witness for C5 at the concrete buffer
`8e 01 8f 8e 8d ad 8f = [142,1,143] ++ [142,141,173,143]`. -/
theorem C5_split_concat_witness :
    ([[142, 1, 143], [142, 141, 173, 143]] : List (List Nat)) ≠ [] ∧
      (∀ f ∈ ([[142, 1, 143], [142, 141, 173, 143]] : List (List Nat)), WellFramed f) ∧
      split_records ([[142, 1, 143], [142, 141, 173, 143]] : List (List Nat)).flatten
        = [[142, 1, 143], [142, 141, 173, 143]] := by
  have h1 : WellFramed [142, 1, 143] := ⟨[1], rfl, by decide⟩
  have h2 : WellFramed [142, 141, 173, 143] := ⟨[141, 173], rfl, by decide⟩
  have hall : ∀ f ∈ ([[142, 1, 143], [142, 141, 173, 143]] : List (List Nat)), WellFramed f := by
    intro f hf
    rcases List.mem_cons.mp hf with rfl | hf'
    · exact h1
    · rcases List.mem_cons.mp hf' with rfl | hf''
      · exact h2
      · exact absurd hf'' (List.not_mem_nil f)
  exact ⟨by simp, hall, C5_split_concat _ (by simp) hall⟩

/-! ## Previous-lap lemmas -/

theorem foldl_pickMaxPass_some (cand : List LapRow) : ∀ (m₀ : LapRow),
    ∃ m, cand.foldl pickMaxPass (some m₀) = some m ∧ (m = m₀ ∨ m ∈ cand) ∧
      m₀.pass_id ≤ m.pass_id ∧ ∀ l ∈ cand, l.pass_id ≤ m.pass_id := by
  induction cand with
  | nil =>
    intro m₀
    exact ⟨m₀, rfl, Or.inl rfl, Nat.le_refl _, by simp⟩
  | cons c cand ih =>
    intro m₀
    by_cases hlt : m₀.pass_id < c.pass_id
    · obtain ⟨m, hm, hmem, hle, hmax⟩ := ih c
      refine ⟨m, ?_, ?_, ?_, ?_⟩
      · simpa [pickMaxPass, hlt] using hm
      · rcases hmem with rfl | h
        · exact Or.inr (List.mem_cons_self _ _)
        · exact Or.inr (List.mem_cons_of_mem _ h)
      · exact Nat.le_trans (Nat.le_of_lt hlt) hle
      · intro l hl
        rcases List.mem_cons.mp hl with rfl | h
        · exact hle
        · exact hmax l h
    · obtain ⟨m, hm, hmem, hle, hmax⟩ := ih m₀
      refine ⟨m, ?_, ?_, hle, ?_⟩
      · simpa [pickMaxPass, hlt] using hm
      · rcases hmem with rfl | h
        · exact Or.inl rfl
        · exact Or.inr (List.mem_cons_of_mem _ h)
      · intro l hl
        rcases List.mem_cons.mp hl with rfl | h
        · exact Nat.le_trans (Nat.le_of_not_lt hlt) hle
        · exact hmax l h

theorem foldl_pickMaxPass_of_ne_nil (cand : List LapRow) (h : cand ≠ []) :
    ∃ m, cand.foldl pickMaxPass none = some m ∧ m ∈ cand ∧
      ∀ l ∈ cand, l.pass_id ≤ m.pass_id := by
  cases cand with
  | nil => exact absurd rfl h
  | cons c cand =>
    obtain ⟨m, hm, hmem, hle, hmax⟩ := foldl_pickMaxPass_some cand c
    have hfold : (c :: cand).foldl pickMaxPass none = cand.foldl pickMaxPass (some c) := rfl
    refine ⟨m, by rw [hfold, hm], ?_, ?_⟩
    · rcases hmem with rfl | hmem'
      · exact List.mem_cons_self _ _
      · exact List.mem_cons_of_mem _ hmem'
    · intro l hl
      rcases List.mem_cons.mp hl with heq | hl'
      · rw [heq]
        exact hle
      · exact hmax l hl'

theorem prevLapRow_none_of_no_match (laps : List LapRow) (heatId tid passId : Nat)
    (hno : ∀ l ∈ laps, ¬ lapMatches heatId tid passId l = true) :
    prevLapRow laps heatId tid passId = none := by
  unfold prevLapRow
  rw [List.filter_eq_nil_iff.mpr hno]
  rfl

theorem prevLapRow_eq_of_isPrev (laps : List LapRow) (heatId tid passId : Nat)
    (l : LapRow)
    (hinj : ∀ l₁ ∈ laps, ∀ l₂ ∈ laps, l₁.pass_id = l₂.pass_id → l₁ = l₂)
    (hl : IsPrevLap laps heatId tid passId l) :
    prevLapRow laps heatId tid passId = some l := by
  obtain ⟨hmem, hmatch, hmax⟩ := hl
  have hlcand : l ∈ laps.filter (lapMatches heatId tid passId) :=
    List.mem_filter.mpr ⟨hmem, hmatch⟩
  obtain ⟨m, hm, hmcand, hmmax⟩ :=
    foldl_pickMaxPass_of_ne_nil (laps.filter (lapMatches heatId tid passId))
      (List.ne_nil_of_mem hlcand)
  have hmlaps := List.mem_filter.mp hmcand
  have h1 : m.pass_id ≤ l.pass_id := hmax m hmlaps.1 hmlaps.2
  have h2 : l.pass_id ≤ m.pass_id := hmmax l hlcand
  have : m = l := hinj m hmlaps.1 l hmem (Nat.le_antisymm h1 h2)
  unfold prevLapRow
  rw [hm, this]

/-- C6 counterexample: heat 1, transponder 5, minimum lap time 10 s, laps
(pass 1, rtc 100000000) and (pass 2, rtc 50000000), passing (pass 3, rtc
105000000).  The code reads previous from the lap with the largest pass_id
(rtc 50000000) and inserts the lap, although the largest rtc_time of the
claim's rule is 100000000, whose difference to the passing (5 s) does not
exceed the 10-second threshold — under the claim the passing would be
deleted, not lapped. -/
theorem C6_counterexample :
    (add_pass_to_laps [⟨1, 1, 5, 100000000⟩, ⟨1, 2, 5, 50000000⟩] [] 1 10
        ⟨0, 3, 5, 105000000, 0, 0, 0, 0⟩).1
      = [⟨1, 1, 5, 100000000⟩, ⟨1, 2, 5, 50000000⟩, ⟨1, 3, 5, 105000000⟩] ∧
    ¬ ((10 : Int) * 1000000 <
        (105000000 : Int) -
          claimPreviousTime [⟨1, 1, 5, 100000000⟩, ⟨1, 2, 5, 50000000⟩] 1 5 3) := by
  refine ⟨by rfl, by decide⟩

/-- C6 (amended): for every unprocessed passing, previous is the `rtc_time`
of the lap with the LARGEST PASS_ID among this heat's laps with the
passing's transponder and a smaller pass_id (0 when no such lap exists, and
well-defined when lap pass_ids are distinct); a lap row is inserted exactly
when `R − previous > minimum_lap_time·10⁶`, and otherwise no lap is written
and the passing's row is deleted from the passes table. -/
theorem C6_amended_min_lap (laps : List LapRow) (passes : List PassRow)
    (heatId : Nat) (minLap : Int) (pas : PassRow)
    (hinj : ∀ l₁ ∈ laps, ∀ l₂ ∈ laps, l₁.pass_id = l₂.pass_id → l₁ = l₂) :
    ((∀ l ∈ laps, ¬ lapMatches heatId pas.transponder_id pas.pass_id l = true) →
        previous_lap_time laps heatId pas.transponder_id pas.pass_id = 0) ∧
    (∀ l, IsPrevLap laps heatId pas.transponder_id pas.pass_id l →
        previous_lap_time laps heatId pas.transponder_id pas.pass_id = l.rtc_time) ∧
    add_pass_to_laps laps passes heatId minLap pas =
      (if minLap * 1000000 <
          pas.rtc_time - previous_lap_time laps heatId pas.transponder_id pas.pass_id then
        (laps ++ [⟨heatId, pas.pass_id, pas.transponder_id, pas.rtc_time⟩], passes)
      else
        (laps, passes.filter (fun r => r.pass_id ≠ pas.pass_id))) := by
  refine ⟨?_, ?_, ?_⟩
  · intro hno
    unfold previous_lap_time
    rw [prevLapRow_none_of_no_match laps _ _ _ hno]
  · intro l hl
    unfold previous_lap_time
    rw [prevLapRow_eq_of_isPrev laps _ _ _ l hinj hl]
  · by_cases hc : minLap * 1000000 <
        pas.rtc_time - previous_lap_time laps heatId pas.transponder_id pas.pass_id
    · simp [add_pass_to_laps, valid_lap_time, hc]
    · simp [add_pass_to_laps, valid_lap_time, hc]

/-- Witness for the amended C6 at one lap (heat 1, pass 1, transponder 5,
rtc 100) and the passing (pass 2, transponder 5, rtc 20000000) with a
10-second minimum lap time. -/
theorem C6_amended_min_lap_witness :
    (∀ l₁ ∈ ([⟨1, 1, 5, 100⟩] : List LapRow), ∀ l₂ ∈ ([⟨1, 1, 5, 100⟩] : List LapRow),
        l₁.pass_id = l₂.pass_id → l₁ = l₂) ∧
    (((∀ l ∈ ([⟨1, 1, 5, 100⟩] : List LapRow), ¬ lapMatches 1 5 2 l = true) →
        previous_lap_time [⟨1, 1, 5, 100⟩] 1 5 2 = 0) ∧
     (∀ l, IsPrevLap [⟨1, 1, 5, 100⟩] 1 5 2 l →
        previous_lap_time [⟨1, 1, 5, 100⟩] 1 5 2 = l.rtc_time) ∧
     add_pass_to_laps [⟨1, 1, 5, 100⟩] [] 1 10 ⟨0, 2, 5, 20000000, 0, 0, 0, 0⟩ =
       (if (10 : Int) * 1000000 <
           (20000000 : Int) - previous_lap_time [⟨1, 1, 5, 100⟩] 1 5 2 then
         ([⟨1, 1, 5, 100⟩] ++ [⟨1, 2, 5, 20000000⟩], [])
       else
         ([⟨1, 1, 5, 100⟩],
          List.filter (fun r => r.pass_id ≠ 2) ([] : List PassRow)))) :=
  ⟨by decide, C6_amended_min_lap [⟨1, 1, 5, 100⟩] [] 1 10
      ⟨0, 2, 5, 20000000, 0, 0, 0, 0⟩ (by decide)⟩
